import Mathlib

/-!
Shallow embedding of the V4L2 capture example (src/examples/ccapture/capture.c)
from vladimirvivien/go4vl.

Device interactions (ioctl, mmap, select) are modelled by oracles: structures
of functions giving the device's response to each request.  Process
termination via exit()/abort() is modelled by distinguished result
constructors, each mapped to the exit status the C code passes to exit().
-/

namespace Capture

/-- EXIT_SUCCESS as used by exit() in the C code. -/
def EXIT_SUCCESS : Nat := 0

/-- EXIT_FAILURE as used by exit() and errno_exit() in the C code. -/
def EXIT_FAILURE : Nat := 1

/-! ### Command-line handling (capture.c, main, lines 382-423) -/

/-- The mutable globals that the option loop of main updates:
dev_name (line 36), out_buf (line 41), force_format (line 42),
frame_count (line 43, a C int). -/
structure Config where
  dev_name : String
  out_buf : Nat
  force_format : Nat
  frame_count : Int
deriving DecidableEq

/-- Initial values of the globals: dev_name is set to /dev/video0 at the top
of main; out_buf and force_format are zero-initialised statics;
frame_count is initialised to 70 (line 43). -/
def initialConfig : Config :=
  { dev_name := "/dev/video0", out_buf := 0, force_format := 0, frame_count := 70 }

/-- The long_options table (lines 371-380): long option name paired with the
short option character getopt_long returns for it. -/
def long_options : List (String × Char) :=
  [("device", 'd'), ("help", 'h'), ("mmap", 'm'),
   ("output", 'o'), ("format", 'f'), ("count", 'c')]

/-- The short_options string (line 369). -/
def short_options : String := "d:hmruofc:"

/-- Resolution of a long option name through the long_options table, as
getopt_long does: the returned character is the val field of the entry. -/
def lookupLongOption (name : String) : Option Char :=
  (long_options.find? (fun p => p.1 == name)).map (fun p => p.2)

/-- Outcome of one iteration of the option loop in main. -/
inductive OptOutcome where
  | cont (cfg : Config)
  | exitWith (code : Nat)
deriving DecidableEq

/-- The switch statement of main (lines 396-422) acting on the option
character c returned by getopt_long.  cValue models the result of
strtol(optarg) in the c-case: some v when errno stays 0 and the parsed
value (truncated to int) is v, none when errno is set (errno_exit).
The switch has cases for 0, d, h, o and c only; every other character,
including f, m, r and u, which appear in the option tables, falls to the
default case: usage(stderr) followed by exit(EXIT_FAILURE). -/
def processOption (cfg : Config) (c : Char) (optarg : String) (cValue : Option Int) :
    OptOutcome :=
  if c = Char.ofNat 0 then .cont cfg
  else if c = 'd' then .cont { cfg with dev_name := optarg }
  else if c = 'h' then .exitWith EXIT_SUCCESS
  else if c = 'o' then .cont { cfg with out_buf := cfg.out_buf + 1 }
  else if c = 'c' then
    match cValue with
    | some v => .cont { cfg with frame_count := v }
    | none => .exitWith EXIT_FAILURE
  else .exitWith EXIT_FAILURE

/-- One resolved command-line option: the character getopt_long returned,
its optarg, and the strtol model for the c-case. -/
structure CliOpt where
  ch : Char
  optarg : String
  cValue : Option Int

/-- The option loop of main (lines 386-423) over a list of already-resolved
options: runs processOption until the list is exhausted or an exit occurs. -/
def parseOptions (cfg : Config) : List CliOpt → OptOutcome
  | [] => .cont cfg
  | o :: rest =>
    match processOption cfg o.ch o.optarg o.cValue with
    | .cont cfg2 => parseOptions cfg2 rest
    | .exitWith code => .exitWith code

/-! ### Format negotiation (capture.c, init_device, lines 300-317) -/

/-- The fourcc code V4L2_PIX_FMT_YUYV. -/
def V4L2_PIX_FMT_YUYV : Nat := 0x56595559

/-- The enum value V4L2_FIELD_INTERLACED. -/
def V4L2_FIELD_INTERLACED : Nat := 4

/-- The pix-format fields of struct v4l2_format that init_device touches. -/
structure PixFormat where
  width : Nat
  height : Nat
  pixelformat : Nat
  fieldOrder : Nat
deriving DecidableEq

/-- Device oracle for the format ioctls: s_fmt_resp gives the format the
device settles on for a VIDIOC_S_FMT request (none models ioctl failure);
g_fmt_resp gives the current format for VIDIOC_G_FMT. -/
structure FmtDevice where
  s_fmt_resp : PixFormat → Option PixFormat
  g_fmt_resp : Option PixFormat

/-- Result of the format-negotiation part of init_device. -/
inductive FmtResult where
  | ok (fmt : PixFormat)
  | fatalSFmt
  | fatalGFmt
deriving DecidableEq

/-- The format block of init_device (lines 300-317): when force_format is
nonzero it requests 640x480 YUYV interlaced and keeps whatever the device
returns (the comment notes VIDIOC_S_FMT may change width and height; the
code performs no check on the result); otherwise it reads the current
format.  Either ioctl failing calls errno_exit. -/
def init_device_fmt (force_format : Nat) (dev : FmtDevice) : FmtResult :=
  if force_format ≠ 0 then
    match dev.s_fmt_resp ⟨640, 480, V4L2_PIX_FMT_YUYV, V4L2_FIELD_INTERLACED⟩ with
    | some adjusted => .ok adjusted
    | none => .fatalSFmt
  else
    match dev.g_fmt_resp with
    | some cur => .ok cur
    | none => .fatalGFmt

/-! ### Buffer pool allocation (capture.c, init_mmap, lines 189-245) -/

/-- One entry of the buffers array (struct buffer, lines 31-34): the mapped
start address and the byte length. -/
structure CBuffer where
  start : Nat
  length : Nat
deriving DecidableEq

/-- Result of an ioctl that distinguishes EINVAL from other errnos. -/
inductive IoctlResult (α : Type) where
  | ok (val : α)
  | einval
  | err
deriving DecidableEq

/-- Device oracle for init_mmap: reqbufs gives the granted count for a
VIDIOC_REQBUFS request of a given count; querybuf gives the buffer length
reported by VIDIOC_QUERYBUF for an index (none models ioctl failure);
mmapAddr gives the address mmap returns for an index (none models
MAP_FAILED); callocOk models whether calloc succeeds. -/
structure MmapDevice where
  reqbufs : Nat → IoctlResult Nat
  querybuf : Nat → Option Nat
  mmapAddr : Nat → Option Nat
  callocOk : Bool

/-- Result of init_mmap.  The fatal constructors record which exit path of
the C code fired; fatalQuerybuf and fatalMmap carry the buffers whose
mappings had already been created when errno_exit ran (the C code calls
exit() directly and unmaps nothing on these paths). -/
inductive InitMmapResult where
  | pool (bufs : List CBuffer)
  | fatalNoSupport
  | fatalReqbufs
  | fatalInsufficient
  | fatalNoMemory
  | fatalQuerybuf (mapped : List CBuffer)
  | fatalMmap (mapped : List CBuffer)
deriving DecidableEq

/-- The count init_mmap requests: req.count = 4 (line 195). -/
def requestedBufferCount : Nat := 4

/-- The allocation loop of init_mmap (lines 222-244) over the remaining
indices: VIDIOC_QUERYBUF for the index, then mmap of the reported length;
failure of either terminates the process via errno_exit with the earlier
mappings still in place. -/
def initMmapLoop (dev : MmapDevice) : List Nat → List CBuffer → InitMmapResult
  | [], acc => .pool acc
  | i :: rest, acc =>
    match dev.querybuf i with
    | none => .fatalQuerybuf acc
    | some len =>
      match dev.mmapAddr i with
      | none => .fatalMmap acc
      | some addr => initMmapLoop dev rest (acc ++ [⟨addr, len⟩])

/-- init_mmap (lines 189-245): request 4 buffers; EINVAL means no mmap
support (exit 1), any other REQBUFS failure is errno_exit; a granted
count below 2 is the insufficient-buffers exit (exit 1); calloc failure
is the out-of-memory exit; then the per-index query/mmap loop runs for
every index in [0, granted). -/
def init_mmap (dev : MmapDevice) : InitMmapResult :=
  match dev.reqbufs requestedBufferCount with
  | .einval => .fatalNoSupport
  | .err => .fatalReqbufs
  | .ok count =>
    if count < 2 then .fatalInsufficient
    else if dev.callocOk then initMmapLoop dev (List.range count) []
    else .fatalNoMemory

/-- The exit status init_mmap's result terminates the process with: every
fatal path goes through exit(EXIT_FAILURE) (directly or via errno_exit);
the pool result returns to the caller without exiting. -/
def initMmapExitCode : InitMmapResult → Option Nat
  | .pool _ => none
  | _ => some EXIT_FAILURE

/-- The mappings that exist when init_mmap finishes (normally or by
terminating the process): the fatal paths of the C code never call munmap. -/
def createdMappings : InitMmapResult → List CBuffer
  | .pool bufs => bufs
  | .fatalQuerybuf mapped => mapped
  | .fatalMmap mapped => mapped
  | _ => []

/-- uninit_device (lines 179-187): munmaps every buffer in order; a munmap
failure is errno_exit, leaving the rest mapped.  Returns the buffers still
mapped when the function finishes (empty when every munmap succeeds). -/
def uninit_device (munmapOk : CBuffer → Bool) : List CBuffer → List CBuffer
  | [] => []
  | b :: rest => if munmapOk b then uninit_device munmapOk rest else b :: rest

/-! ### The capture loop (capture.c, read_frame lines 72-105 and mainloop
lines 107-144) -/

/-- One frame as delivered to process_image: the dequeued index, the
bytesused field of the dequeued v4l2_buffer, and the address read
(buffers[buf.index].start). -/
structure Frame where
  index : Nat
  bytesused : Nat
  data : Nat
deriving DecidableEq

/-- Device response to VIDIOC_DQBUF: a dequeued buffer (with the outcome of
the subsequent VIDIOC_QBUF requeue folded in as qbufOk), or errno EAGAIN,
EIO, or any other errno. -/
inductive DequeueResult where
  | frame (index : Nat) (bytesused : Nat) (qbufOk : Bool)
  | eagain
  | eio
  | errOther
deriving DecidableEq

/-- Outcome of read_frame (lines 72-105). -/
inductive ReadFrameOutcome where
  | delivered (f : Frame)
  | again
  | fatalDequeue
  | fatalQueue (f : Frame)
  | assertFailed
deriving DecidableEq

/-- read_frame (lines 72-105): VIDIOC_DQBUF; EAGAIN returns 0 (again); EIO
falls through to the default case and hence to errno_exit, exactly like
any other errno (lines 87-94); on success the assert buf.index lt
n_buffers runs before buffers[buf.index] is read (lines 97-99), so an
out-of-range index aborts without any array access; then process_image
reads buffers[buf.index].start and VIDIOC_QBUF requeues the buffer, whose
failure is errno_exit (lines 101-102). -/
def read_frame (bufs : List CBuffer) (d : DequeueResult) : ReadFrameOutcome :=
  match d with
  | .eagain => .again
  | .eio => .fatalDequeue
  | .errOther => .fatalDequeue
  | .frame i b qok =>
    if h : i < bufs.length then
      let f : Frame := ⟨i, b, (bufs.get ⟨i, h⟩).start⟩
      if qok then .delivered f else .fatalQueue f
    else .assertFailed

/-- One result of the select() call in mainloop (line 126): ready (with the
DQBUF response that follows), timeout (r = 0), interrupted (EINTR), or
any other failure. -/
inductive SelectResult where
  | ready (d : DequeueResult)
  | timeout
  | eintr
  | errOther
deriving DecidableEq

/-- Result of mainloop.  Every constructor carries the frames delivered to
process_image before mainloop finished.  starved is a model artifact: the
finite event trace ran out while the loop still wanted events. -/
inductive LoopResult where
  | done (frames : List Frame)
  | fatalSelectTimeout (frames : List Frame)
  | fatalSelect (frames : List Frame)
  | fatalDequeue (frames : List Frame)
  | fatalQueue (frames : List Frame)
  | assertAbort (frames : List Frame)
  | starved (frames : List Frame)
deriving DecidableEq

/-- The loop body of mainloop (lines 113-143), driven by a finite trace of
select results: while (count-- gt 0), the inner for-loop selects; EINTR
continues the inner loop; a select timeout prints and exits with
EXIT_FAILURE; any other select failure is errno_exit; on readiness,
read_frame runs and a 0 return (EAGAIN) continues the inner loop while a
1 return breaks to the outer loop, decrementing count. -/
def mainloopAux (bufs : List CBuffer) :
    Nat → List SelectResult → List Frame → LoopResult
  | 0, _, acc => .done acc
  | _ + 1, [], acc => .starved acc
  | c + 1, ev :: rest, acc =>
    match ev with
    | .eintr => mainloopAux bufs (c + 1) rest acc
    | .timeout => .fatalSelectTimeout acc
    | .errOther => .fatalSelect acc
    | .ready d =>
      match read_frame bufs d with
      | .delivered f => mainloopAux bufs c rest (acc ++ [f])
      | .again => mainloopAux bufs (c + 1) rest acc
      | .fatalDequeue => .fatalDequeue acc
      | .fatalQueue f => .fatalQueue (acc ++ [f])
      | .assertFailed => .assertAbort acc

/-- C conversion of a signed int value to unsigned int, as performed by the
assignment count = frame_count in mainloop (line 111): reduction modulo
2^32. -/
def intToUInt32 (n : Int) : Nat := (n % (4294967296 : Int)).toNat

/-- mainloop (lines 107-144): copies the int frame_count into the unsigned
count and runs the loop. -/
def mainloop (bufs : List CBuffer) (frame_count : Int)
    (evs : List SelectResult) : LoopResult :=
  mainloopAux bufs (intToUInt32 frame_count) evs []

/-- The frames a LoopResult carries. -/
def LoopResult.frames : LoopResult → List Frame
  | .done fs => fs
  | .fatalSelectTimeout fs => fs
  | .fatalSelect fs => fs
  | .fatalDequeue fs => fs
  | .fatalQueue fs => fs
  | .assertAbort fs => fs
  | .starved fs => fs

/-- The exit status mainloop's result terminates the process with: the
select-timeout path and every errno_exit path call exit(EXIT_FAILURE);
done returns to main without exiting; assertAbort terminates by abort,
not exit. -/
def loopExitCode : LoopResult → Option Nat
  | .fatalSelectTimeout _ => some EXIT_FAILURE
  | .fatalSelect _ => some EXIT_FAILURE
  | .fatalDequeue _ => some EXIT_FAILURE
  | .fatalQueue _ => some EXIT_FAILURE
  | _ => none

/-- The part of main after option parsing that the claims reach: init_mmap
(via init_device), and if it yields a pool, start_capturing then mainloop.
A fatal init_mmap result exits the process before any buffer is queued or
dequeued, so the loop never runs (none). -/
def runCapture (dev : MmapDevice) (frame_count : Int)
    (evs : List SelectResult) : InitMmapResult × Option LoopResult :=
  match init_mmap dev with
  | .pool bufs => (.pool bufs, some (mainloop bufs frame_count evs))
  | r => (r, none)

/-- The frames delivered to the sink in a whole run. -/
def capturedFrames (r : InitMmapResult × Option LoopResult) : List Frame :=
  match r.2 with
  | none => []
  | some lr => lr.frames

/-! ### Buffer ownership (capture.c, start_capturing lines 156-177 and
read_frame lines 82-104) -/

/-- Ownership state of the buffer pool while streaming: n is the pool size,
deviceOwned the indices currently queued to the device, procOwned the
indices dequeued by the process and not yet requeued. -/
structure OwnState where
  n : Nat
  deviceOwned : Finset Nat
  procOwned : Finset Nat
deriving DecidableEq

/-- start_capturing (lines 156-177): queues every index in [0, n) to the
device via VIDIOC_QBUF and then issues VIDIOC_STREAMON, so streaming
begins with the device owning the full index range and the process
owning nothing. -/
def start_capturing (n : Nat) : OwnState :=
  { n := n, deviceOwned := Finset.range n, procOwned := ∅ }

/-- An ownership transfer performed by the capture loop: dq i is a
successful VIDIOC_DQBUF returning index i, rq i is a successful
VIDIOC_QBUF of index i. -/
inductive OwnStep where
  | dq (i : Nat)
  | rq (i : Nat)
deriving DecidableEq

/-- Effect of a transfer on the ownership state. -/
def applyStep (s : OwnState) : OwnStep → OwnState
  | .dq i => { s with deviceOwned := s.deviceOwned.erase i,
                      procOwned := insert i s.procOwned }
  | .rq i => { s with procOwned := s.procOwned.erase i,
                      deviceOwned := insert i s.deviceOwned }

/-- The device protocol precondition: a dequeue only returns an index the
device owns, and the loop only requeues an index the process holds. -/
def validStep (s : OwnState) : OwnStep → Bool
  | .dq i => decide (i ∈ s.deviceOwned)
  | .rq i => decide (i ∈ s.procOwned)

/-- A sequence of transfers each valid in the state it starts from. -/
def validTrace : OwnState → List OwnStep → Bool
  | _, [] => true
  | s, st :: rest => validStep s st && validTrace (applyStep s st) rest

/-- Running a sequence of transfers. -/
def runSteps : OwnState → List OwnStep → OwnState
  | s, [] => s
  | s, st :: rest => runSteps (applyStep s st) rest

/-- The ownership partition invariant of the spec: device-owned and
process-owned indices are disjoint and together cover [0, n). -/
def ownInvariant (s : OwnState) : Prop :=
  s.deviceOwned ∩ s.procOwned = ∅ ∧
  s.deviceOwned ∪ s.procOwned = Finset.range s.n

/-- The ownership transfers of one successful read_frame iteration
(lines 82-104): dequeue index i, deliver, requeue index i. -/
def read_frameSteps (i : Nat) : List OwnStep := [.dq i, .rq i]

/-! ### Concrete devices and inputs used in the theorems below -/

/-- A format device that honors any request but adjusts the height to 360,
as in the scenario where 640x480 is adjusted down to 640x360. -/
def adjustingFmtDev : FmtDevice :=
  { s_fmt_resp := fun req => some { req with height := 360 }
  , g_fmt_resp := some ⟨1280, 720, 0, 1⟩ }

/-- A device for the mapping-failure scenario: REQBUFS grants 4 buffers,
QUERYBUF reports length 100 for every index, mmap succeeds at index 0
with address 1000 and fails at every later index. -/
def mmapFailDev : MmapDevice :=
  { reqbufs := fun _ => .ok 4
  , querybuf := fun _ => some 100
  , mmapAddr := fun i => if i = 0 then some 1000 else none
  , callocOk := true }

/-- A device that grants only one buffer. -/
def grantOneDev : MmapDevice :=
  { reqbufs := fun _ => .ok 1
  , querybuf := fun _ => some 100
  , mmapAddr := fun _ => some 1000
  , callocOk := true }

/-- A pool of two mapped buffers. -/
def bufsTwo : List CBuffer := [⟨1000, 100⟩, ⟨2000, 100⟩]

/-- A pool of three mapped buffers. -/
def bufsThree : List CBuffer := [⟨1000, 100⟩, ⟨2000, 100⟩, ⟨3000, 100⟩]

/-- The event trace of scenario C: not-ready, ready, ready, not-ready,
ready, ready, ready (five frames delivered, two benign retries). -/
def eventsScenarioC : List SelectResult :=
  [.ready .eagain, .ready (.frame 0 10 true), .ready (.frame 1 12 true),
   .ready .eagain, .ready (.frame 2 9 true), .ready (.frame 0 11 true),
   .ready (.frame 1 8 true)]

/-! ### Claims -/

/-- Claim C1: the option tables declare the f (format) option and the
usage text documents it, and with force_format set the negotiation would
indeed accept a device adjustment of 640x480 down to 640x360; but the
switch in main has no case for f, so supplying the format option falls
to the default case and the process exits with EXIT_FAILURE before any
device is opened — force_format is never enabled (no handled option sets
it), and capture does not proceed. -/
theorem format_option_hits_default_case :
    short_options.toList.contains 'f' = true ∧
    lookupLongOption "format" = some 'f' ∧
    processOption initialConfig 'f' "" none = .exitWith EXIT_FAILURE ∧
    parseOptions initialConfig [⟨'f', "", none⟩] = .exitWith EXIT_FAILURE ∧
    parseOptions initialConfig
      [⟨'d', "/dev/video1", none⟩, ⟨'o', "", none⟩, ⟨'c', "5", some 5⟩] =
      .cont ⟨"/dev/video1", 1, 0, 5⟩ ∧
    init_device_fmt 1 adjustingFmtDev =
      .ok ⟨640, 360, V4L2_PIX_FMT_YUYV, V4L2_FIELD_INTERLACED⟩ := by
  refine ⟨by decide, rfl, rfl, rfl, rfl, rfl⟩

/-- Claim C2 counterexample: when mmap fails at index 1, init_mmap takes
the errno_exit path with the index-0 mapping still in place: the fatal
exit path releases nothing, so the mapping created for the earlier index
is left dangling at process termination. -/
theorem mapping_failure_leaves_earlier_mapping :
    init_mmap mmapFailDev = .fatalMmap [⟨1000, 100⟩] ∧
    initMmapExitCode (init_mmap mmapFailDev) = some EXIT_FAILURE ∧
    createdMappings (init_mmap mmapFailDev) ≠ [] := by
  refine ⟨rfl, rfl, by decide⟩

/-- Claim C3 counterexample: with an EIO dequeue response followed by a
perfectly good frame, the capture loop aborts fatally at the EIO with
exit status EXIT_FAILURE instead of continuing: EIO is not tolerated. -/
theorem eio_aborts_loop :
    read_frame bufsTwo .eio = .fatalDequeue ∧
    mainloopAux bufsTwo 2 [.ready .eio, .ready (.frame 0 5 true)] [] =
      .fatalDequeue [] ∧
    loopExitCode (.fatalDequeue []) = some EXIT_FAILURE := by
  refine ⟨rfl, by decide, rfl⟩

/-- Claim C3 amended: a dequeue failing with EIO falls through to the
default case and aborts the process via errno_exit, exactly as any other
dequeue errno does; only EAGAIN is tolerated, retrying the readiness
wait without special treatment of the buffer. -/
theorem eio_fall_through (bufs : List CBuffer) (c : Nat)
    (rest : List SelectResult) (acc : List Frame) :
    read_frame bufs .eio = read_frame bufs .errOther ∧
    mainloopAux bufs (c + 1) (.ready .eio :: rest) acc = .fatalDequeue acc ∧
    loopExitCode (.fatalDequeue acc) = some EXIT_FAILURE ∧
    mainloopAux bufs (c + 1) (.ready .eagain :: rest) acc =
      mainloopAux bufs (c + 1) rest acc := by
  refine ⟨rfl, ?_, rfl, ?_⟩ <;> simp [mainloopAux, read_frame]

/-- The allocation loop over a list of indices whose queries and mappings
all succeed appends exactly one descriptor per index and continues with
the rest. -/
theorem initMmapLoop_append (dev : MmapDevice) (len addr : Nat → Nat)
    (l₁ : List Nat) :
    ∀ (l₂ : List Nat) (acc : List CBuffer),
      (∀ i ∈ l₁, dev.querybuf i = some (len i)) →
      (∀ i ∈ l₁, dev.mmapAddr i = some (addr i)) →
      initMmapLoop dev (l₁ ++ l₂) acc =
        initMmapLoop dev l₂ (acc ++ l₁.map fun i => ⟨addr i, len i⟩) := by
  induction l₁ with
  | nil => intro l₂ acc _ _; simp
  | cons x xs ih =>
    intro l₂ acc hq hm
    simp only [List.cons_append, initMmapLoop]
    rw [hq x (by simp), hm x (by simp)]
    have := ih l₂ (acc ++ [⟨addr x, len x⟩])
      (fun i hi => hq i (by simp [hi])) (fun i hi => hm i (by simp [hi]))
    simpa using this

/-- The allocation loop over index list l with every query and mapping
succeeding produces the pool of the corresponding descriptors. -/
theorem initMmapLoop_all_ok (dev : MmapDevice) (len addr : Nat → Nat)
    (l : List Nat) (acc : List CBuffer)
    (hq : ∀ i ∈ l, dev.querybuf i = some (len i))
    (hm : ∀ i ∈ l, dev.mmapAddr i = some (addr i)) :
    initMmapLoop dev l acc = .pool (acc ++ l.map fun i => ⟨addr i, len i⟩) := by
  have := initMmapLoop_append dev len addr l [] acc hq hm
  simpa [initMmapLoop] using this

/-- Every munmap succeeding, uninit_device unmaps everything. -/
theorem uninit_device_all_ok (munmapOk : CBuffer → Bool)
    (hok : ∀ b, munmapOk b = true) :
    ∀ l : List CBuffer, uninit_device munmapOk l = [] := by
  intro l
  induction l with
  | nil => rfl
  | cons b rest ih => simp [uninit_device, hok b, ih]

/-- Claim C2 amended: a mapping failure at index k (all earlier indices
having been queried and mapped successfully) terminates the process via
errno_exit with exit status EXIT_FAILURE, and the k mappings created for
the earlier indices are still in place at exit — nothing is released on
the fatal path.  Release of the mappings is performed only by
uninit_device, which unmaps every buffer when its munmaps succeed, and
which main reaches only on the normal path after capture completes. -/
theorem mapping_failure_fatal_exit (dev : MmapDevice) (c k : Nat)
    (len addr : Nat → Nat)
    (hreq : dev.reqbufs requestedBufferCount = .ok c)
    (hc : 2 ≤ c) (hcalloc : dev.callocOk = true) (hk : k < c)
    (hq : ∀ i, i ≤ k → dev.querybuf i = some (len i))
    (hm : ∀ i, i < k → dev.mmapAddr i = some (addr i))
    (hfail : dev.mmapAddr k = none) :
    init_mmap dev = .fatalMmap ((List.range k).map fun i => ⟨addr i, len i⟩) ∧
    initMmapExitCode (init_mmap dev) = some EXIT_FAILURE ∧
    (createdMappings (init_mmap dev)).length = k ∧
    ∀ munmapOk : CBuffer → Bool, (∀ b, munmapOk b = true) →
      uninit_device munmapOk (createdMappings (init_mmap dev)) = [] := by
  have hsplit : List.range c = List.range k ++ (k :: List.range' (k + 1) (c - k - 1)) := by
    have h2 : c - k = (c - k - 1) + 1 := by omega
    have h3 := List.range'_append_1 0 k (c - k)
    rw [Nat.zero_add] at h3
    rw [← List.range_eq_range', ← List.range_eq_range',
      show c - k + k = c from by omega] at h3
    rw [← h3, h2, List.range'_succ]
    simp
  have hmain : init_mmap dev =
      .fatalMmap ((List.range k).map fun i => ⟨addr i, len i⟩) := by
    unfold init_mmap
    rw [hreq]
    simp only [Nat.not_lt.mpr hc, if_false, hcalloc, if_true]
    rw [hsplit, initMmapLoop_append dev len addr (List.range k) _ []
      (fun i hi => hq i (Nat.le_of_lt (List.mem_range.mp hi)))
      (fun i hi => hm i (List.mem_range.mp hi))]
    simp only [initMmapLoop, hq k (Nat.le_refl k), hfail, List.nil_append]
  refine ⟨hmain, by rw [hmain]; rfl, by rw [hmain]; simp [createdMappings], ?_⟩
  intro munmapOk hok
  rw [hmain]
  exact uninit_device_all_ok munmapOk hok _

/-- Claim C2 amended witness: the concrete device failing at index 1. -/
theorem mapping_failure_fatal_exit_witness :
    init_mmap mmapFailDev =
      .fatalMmap ((List.range 1).map fun _ => ⟨1000, 100⟩) ∧
    initMmapExitCode (init_mmap mmapFailDev) = some EXIT_FAILURE ∧
    (createdMappings (init_mmap mmapFailDev)).length = 1 ∧
    ∀ munmapOk : CBuffer → Bool, (∀ b, munmapOk b = true) →
      uninit_device munmapOk (createdMappings (init_mmap mmapFailDev)) = [] :=
  mapping_failure_fatal_exit mmapFailDev 4 1 (fun _ => 100) (fun _ => 1000)
    rfl (by decide) rfl (by decide)
    (fun _ _ => rfl)
    (fun i hi => by
      have : i = 0 := by omega
      subst this
      rfl)
    rfl

/-- Claim C6: when the device grants a count of at least 2 (for the fixed
request of 4) and every per-index query and mapping succeeds, init_mmap
yields a pool whose size equals the granted count and whose descriptor at
every index has exactly the length the device reported for that index. -/
theorem pool_size_equals_granted (dev : MmapDevice) (c : Nat)
    (len addr : Nat → Nat)
    (hreq : dev.reqbufs requestedBufferCount = .ok c)
    (hc : 2 ≤ c) (hcalloc : dev.callocOk = true)
    (hq : ∀ i, i < c → dev.querybuf i = some (len i))
    (hm : ∀ i, i < c → dev.mmapAddr i = some (addr i)) :
    ∃ bufs, init_mmap dev = .pool bufs ∧ bufs.length = c ∧
      ∀ i, i < c → bufs[i]? = some ⟨addr i, len i⟩ := by
  refine ⟨(List.range c).map fun i => ⟨addr i, len i⟩, ?_, by simp, ?_⟩
  · unfold init_mmap
    rw [hreq]
    simp only [Nat.not_lt.mpr hc, if_false, hcalloc, if_true]
    exact initMmapLoop_all_ok dev len addr (List.range c) []
      (fun i hi => hq i (List.mem_range.mp hi))
      (fun i hi => hm i (List.mem_range.mp hi))
  · intro i hi
    simp [List.getElem?_map, List.getElem?_range hi]

/-- Claim C6 witness, scenario A: request 4, device grants 3: the pool has
size 3 and each descriptor carries the device-reported length. -/
theorem pool_size_equals_granted_witness :
    ∃ bufs, init_mmap
        (MmapDevice.mk (fun _ => .ok 3) (fun i => some (100 + i))
          (fun i => some (4096 * (i + 1))) true) = .pool bufs ∧
      bufs.length = 3 ∧
      ∀ i, i < 3 → bufs[i]? = some ⟨4096 * (i + 1), 100 + i⟩ :=
  pool_size_equals_granted
    (MmapDevice.mk (fun _ => .ok 3) (fun i => some (100 + i))
      (fun i => some (4096 * (i + 1))) true)
    3 (fun i => 100 + i) (fun i => 4096 * (i + 1))
    rfl (by decide) rfl (fun _ _ => rfl) (fun _ _ => rfl)

/-- Claim C7: a granted count below 2 makes init_mmap take the
insufficient-buffers exit: the process terminates with exit status
EXIT_FAILURE, no mapping has been created, the capture pipeline never
reaches start_capturing or the loop (no buffer is queued or dequeued),
and no frame is captured. -/
theorem insufficient_buffers_fatal (dev : MmapDevice) (c : Nat)
    (frame_count : Int) (evs : List SelectResult)
    (hreq : dev.reqbufs requestedBufferCount = .ok c) (hc : c < 2) :
    init_mmap dev = .fatalInsufficient ∧
    initMmapExitCode (init_mmap dev) = some EXIT_FAILURE ∧
    createdMappings (init_mmap dev) = [] ∧
    runCapture dev frame_count evs = (.fatalInsufficient, none) ∧
    capturedFrames (runCapture dev frame_count evs) = [] := by
  have h1 : init_mmap dev = .fatalInsufficient := by
    unfold init_mmap
    rw [hreq]
    simp [hc]
  have h2 : runCapture dev frame_count evs = (.fatalInsufficient, none) := by
    unfold runCapture
    rw [h1]
  refine ⟨h1, by rw [h1]; rfl, by rw [h1]; rfl, h2, by rw [h2]; rfl⟩

/-- Claim C7 witness, scenario B: the device grants one buffer. -/
theorem insufficient_buffers_fatal_witness :
    init_mmap grantOneDev = .fatalInsufficient ∧
    initMmapExitCode (init_mmap grantOneDev) = some EXIT_FAILURE ∧
    createdMappings (init_mmap grantOneDev) = [] ∧
    runCapture grantOneDev 70 [] = (.fatalInsufficient, none) ∧
    capturedFrames (runCapture grantOneDev 70 []) = [] :=
  insufficient_buffers_fatal grantOneDev 1 70 [] rfl (by decide)

/-- A completed run of the loop body has delivered exactly the starting
count of frames beyond those already delivered. -/
theorem mainloopAux_done_length (bufs : List CBuffer) (evs : List SelectResult) :
    ∀ (c : Nat) (acc frames : List Frame),
      mainloopAux bufs c evs acc = .done frames →
      frames.length = acc.length + c := by
  induction evs with
  | nil =>
    intro c acc frames h
    cases c with
    | zero =>
      simp only [mainloopAux, LoopResult.done.injEq] at h
      subst h
      simp
    | succ c =>
      simp only [mainloopAux] at h
      exact absurd h (by simp)
  | cons ev rest ih =>
    intro c acc frames h
    cases c with
    | zero =>
      simp only [mainloopAux, LoopResult.done.injEq] at h
      subst h
      simp
    | succ c =>
      cases ev with
      | eintr =>
        simp only [mainloopAux] at h
        exact ih (c + 1) acc frames h
      | timeout =>
        simp only [mainloopAux] at h
        exact absurd h (by simp)
      | errOther =>
        simp only [mainloopAux] at h
        exact absurd h (by simp)
      | ready d =>
        simp only [mainloopAux] at h
        cases hrf : read_frame bufs d with
        | delivered f =>
          rw [hrf] at h
          simp only [] at h
          have := ih c (acc ++ [f]) frames h
          simp only [List.length_append, List.length_cons, List.length_nil] at this
          omega
        | again =>
          rw [hrf] at h
          exact ih (c + 1) acc frames h
        | fatalDequeue =>
          rw [hrf] at h
          exact absurd h (by simp)
        | fatalQueue f =>
          rw [hrf] at h
          exact absurd h (by simp)
        | assertFailed =>
          rw [hrf] at h
          exact absurd h (by simp)

/-- Claim C4: a run of the capture loop that completes normally has
delivered exactly the requested number of frames to the sink; an EAGAIN
(benign-empty) dequeue retries the readiness wait without decrementing
the remaining count; and a frame whose requeue fails aborts the loop
fatally rather than proceeding, so in a completed run every delivered
frame was requeued before the next dequeue was attempted. -/
theorem mainloop_frame_count (bufs : List CBuffer) :
    (∀ (N : Nat) (evs : List SelectResult) (frames : List Frame),
      mainloopAux bufs N evs [] = .done frames → frames.length = N) ∧
    (∀ (c : Nat) (rest : List SelectResult) (acc : List Frame),
      mainloopAux bufs (c + 1) (.ready .eagain :: rest) acc =
        mainloopAux bufs (c + 1) rest acc) ∧
    (∀ (c : Nat) (rest : List SelectResult) (acc : List Frame) (i b : Nat)
      (h : i < bufs.length),
      mainloopAux bufs (c + 1) (.ready (.frame i b false) :: rest) acc =
        .fatalQueue (acc ++ [⟨i, b, (bufs.get ⟨i, h⟩).start⟩])) := by
  refine ⟨?_, ?_, ?_⟩
  · intro N evs frames h
    have := mainloopAux_done_length bufs evs N [] frames h
    simpa using this
  · intro c rest acc
    simp [mainloopAux, read_frame]
  · intro c rest acc i b h
    simp [mainloopAux, read_frame, h]

/-- Claim C4 witness, scenario C: requested count 5 against the trace
not-ready, ready, ready, not-ready, ready, ready, ready: the run
completes with exactly 5 delivered frames. -/
theorem mainloop_frame_count_witness :
    mainloopAux bufsThree 5 eventsScenarioC [] =
      .done [⟨0, 10, 1000⟩, ⟨1, 12, 2000⟩, ⟨2, 9, 3000⟩,
             ⟨0, 11, 1000⟩, ⟨1, 8, 2000⟩] ∧
    ([⟨0, 10, 1000⟩, ⟨1, 12, 2000⟩, ⟨2, 9, 3000⟩,
      ⟨0, 11, 1000⟩, ⟨1, 8, 2000⟩] : List Frame).length = 5 := by
  constructor
  · decide
  · exact (mainloop_frame_count bufsThree).1 5 eventsScenarioC _ (by decide)

/-- Claim C8: in any iteration of the capture loop, a select timeout takes
the fatal stall path, exiting the process with EXIT_FAILURE instead of
retrying; a select failure with EINTR silently retries the wait with
nothing else changed; and any other select failure is fatal via
errno_exit, also with exit status EXIT_FAILURE. -/
theorem select_timeout_fatal (bufs : List CBuffer) (c : Nat)
    (rest : List SelectResult) (acc : List Frame) :
    (mainloopAux bufs (c + 1) (.timeout :: rest) acc = .fatalSelectTimeout acc ∧
      loopExitCode (.fatalSelectTimeout acc) = some EXIT_FAILURE) ∧
    mainloopAux bufs (c + 1) (.eintr :: rest) acc =
      mainloopAux bufs (c + 1) rest acc ∧
    (mainloopAux bufs (c + 1) (.errOther :: rest) acc = .fatalSelect acc ∧
      loopExitCode (.fatalSelect acc) = some EXIT_FAILURE) := by
  refine ⟨⟨?_, rfl⟩, ?_, ?_, rfl⟩ <;> simp [mainloopAux]

/-- Claim C9: read_frame checks the dequeued index against the pool size
before any buffer access: an out-of-range index makes the assertion fail
and the process abort with no array access performed (the outcome carries
no frame data), while an in-range index leads to an access of exactly the
descriptor at that index, which is within bounds by the very check. -/
theorem dequeue_index_checked (bufs : List CBuffer) (i b : Nat) (qok : Bool) :
    (bufs.length ≤ i → read_frame bufs (.frame i b qok) = .assertFailed) ∧
    (∀ h : i < bufs.length,
      read_frame bufs (.frame i b true) =
        .delivered ⟨i, b, (bufs.get ⟨i, h⟩).start⟩) := by
  constructor
  · intro h
    simp [read_frame, Nat.not_lt.mpr h]
  · intro h
    simp [read_frame, h]

/-- Claim C9 witness: in the two-buffer pool, dequeued index 5 hits the
assertion and index 1 is delivered from the in-bounds descriptor. -/
theorem dequeue_index_checked_witness :
    read_frame bufsTwo (.frame 5 7 true) = .assertFailed ∧
    read_frame bufsTwo (.frame 1 7 true) = .delivered ⟨1, 7, 2000⟩ := by
  constructor
  · exact (dequeue_index_checked bufsTwo 5 7 true).1 (by decide)
  · exact (dequeue_index_checked bufsTwo 1 7 true).2 (by decide)

/-- Claim C10: the count option stores a signed value into frame_count (a
negative count is accepted, not rejected); mainloop copies frame_count
into an unsigned 32-bit counter, so a requested count of 0 runs zero
iterations and returns normally with no frames, a nonnegative count below
2^31 is preserved, a negative count n wraps to 2^32 + n, and a completed
run delivers exactly the wrapped number of frames. -/
theorem frame_count_wraps (bufs : List CBuffer) (evs : List SelectResult) :
    (∀ (cfg : Config) (a : String),
      processOption cfg 'c' a (some (-5)) =
        .cont { cfg with frame_count := -5 }) ∧
    (mainloop bufs 0 evs = .done [] ∧ loopExitCode (.done []) = none) ∧
    (∀ n : Int, 0 ≤ n → n < 2 ^ 31 → intToUInt32 n = n.toNat) ∧
    (∀ n : Int, -(2 ^ 31) ≤ n → n < 0 → (intToUInt32 n : Int) = 2 ^ 32 + n) ∧
    (∀ (n : Int) (frames : List Frame),
      mainloop bufs n evs = .done frames → frames.length = intToUInt32 n) := by
  refine ⟨fun cfg a => rfl, ⟨?_, rfl⟩, ?_, ?_, ?_⟩
  · have h0 : intToUInt32 0 = 0 := by decide
    rw [mainloop, h0]
    simp [mainloopAux]
  · intro n h1 h2
    unfold intToUInt32
    omega
  · intro n h1 h2
    unfold intToUInt32
    omega
  · intro n frames h
    have := mainloopAux_done_length bufs evs (intToUInt32 n) [] frames h
    simpa using this

/-- Claim C10 witness: a count of minus one wraps to 2^32 - 1, zero yields
a clean empty run, and the handler accepts a negative count. -/
theorem frame_count_wraps_witness :
    ((intToUInt32 (-1) : Int) = 2 ^ 32 + (-1)) ∧
    mainloop [] 0 [] = .done [] ∧
    processOption initialConfig 'c' "-5" (some (-5)) =
      .cont { initialConfig with frame_count := -5 } := by
  refine ⟨?_, ?_, ?_⟩
  · exact (frame_count_wraps [] []).2.2.2.1 (-1) (by decide) (by decide)
  · exact (frame_count_wraps [] []).2.1.1
  · exact (frame_count_wraps [] []).1 initialConfig "-5"

/-- start_capturing establishes the ownership partition. -/
theorem ownInvariant_start (n : Nat) : ownInvariant (start_capturing n) := by
  constructor <;> simp [start_capturing]

/-- One protocol-valid transfer preserves the ownership partition. -/
theorem ownInvariant_applyStep (s : OwnState) (st : OwnStep)
    (hv : validStep s st = true) (h : ownInvariant s) :
    ownInvariant (applyStep s st) := by
  obtain ⟨h1, h2⟩ := h
  have h1x : ∀ x, ¬(x ∈ s.deviceOwned ∧ x ∈ s.procOwned) := by
    intro x hx
    have hx2 : x ∈ s.deviceOwned ∩ s.procOwned := Finset.mem_inter.mpr hx
    rw [h1] at hx2
    exact absurd hx2 (Finset.not_mem_empty x)
  have h2x : ∀ x, (x ∈ s.deviceOwned ∨ x ∈ s.procOwned) ↔ x < s.n := by
    intro x
    rw [← Finset.mem_union, h2, Finset.mem_range]
  cases st with
  | dq i =>
    simp only [validStep, decide_eq_true_eq] at hv
    have hvn : i < s.n := (h2x i).mp (Or.inl hv)
    constructor
    · ext x
      simp only [applyStep, Finset.mem_inter, Finset.mem_erase, Finset.mem_insert,
        Finset.not_mem_empty, iff_false]
      have := h1x x
      by_cases hxi : x = i
      · subst hxi; tauto
      · tauto
    · ext x
      simp only [applyStep, Finset.mem_union, Finset.mem_erase, Finset.mem_insert,
        Finset.mem_range]
      have := h2x x
      by_cases hxi : x = i
      · subst hxi; tauto
      · tauto
  | rq i =>
    simp only [validStep, decide_eq_true_eq] at hv
    have hvn : i < s.n := (h2x i).mp (Or.inr hv)
    constructor
    · ext x
      simp only [applyStep, Finset.mem_inter, Finset.mem_erase, Finset.mem_insert,
        Finset.not_mem_empty, iff_false]
      have := h1x x
      by_cases hxi : x = i
      · subst hxi; tauto
      · tauto
    · ext x
      simp only [applyStep, Finset.mem_union, Finset.mem_erase, Finset.mem_insert,
        Finset.mem_range]
      have := h2x x
      by_cases hxi : x = i
      · subst hxi; tauto
      · tauto

/-- The partition is preserved along every protocol-valid trace. -/
theorem ownInvariant_runSteps (l : List OwnStep) :
    ∀ s : OwnState, ownInvariant s → validTrace s l = true →
      ownInvariant (runSteps s l) := by
  induction l with
  | nil => intro s h _; exact h
  | cons st rest ih =>
    intro s h hv
    simp only [validTrace, Bool.and_eq_true] at hv
    exact ih (applyStep s st) (ownInvariant_applyStep s st hv.1 h) hv.2

/-- Every prefix of a protocol-valid trace is protocol-valid. -/
theorem validTrace_take (l : List OwnStep) :
    ∀ (s : OwnState) (k : Nat), validTrace s l = true →
      validTrace s (l.take k) = true := by
  induction l with
  | nil => intro s k _; simp [validTrace]
  | cons st rest ih =>
    intro s k hv
    cases k with
    | zero => simp [validTrace]
    | succ k =>
      simp only [validTrace, Bool.and_eq_true] at hv
      simp only [List.take_succ_cons, validTrace, Bool.and_eq_true]
      exact ⟨hv.1, ih (applyStep s st) k hv.2⟩

/-- Claim C5: after start_capturing queues every index in [0, n) and turns
streaming on, the device-owned and process-owned index sets are disjoint
and together cover [0, n), and this partition holds at every point of any
protocol-valid trace of dequeue/requeue transfers; in particular one
read_frame iteration (dequeue index i, deliver, requeue index i)
preserves it from any state satisfying it in which the device owns i. -/
theorem ownership_partition (n : Nat) (tr : List OwnStep)
    (htr : validTrace (start_capturing n) tr = true) :
    (∀ k : Nat, ownInvariant (runSteps (start_capturing n) (tr.take k))) ∧
    (∀ (s : OwnState) (i : Nat), ownInvariant s → i ∈ s.deviceOwned →
      ownInvariant (runSteps s (read_frameSteps i))) := by
  constructor
  · intro k
    exact ownInvariant_runSteps (tr.take k) (start_capturing n)
      (ownInvariant_start n) (validTrace_take tr (start_capturing n) k htr)
  · intro s i h hi
    have h1 := ownInvariant_applyStep s (.dq i) (by simp [validStep, hi]) h
    have h2 := ownInvariant_applyStep (applyStep s (.dq i)) (.rq i)
      (by simp [validStep, applyStep]) h1
    exact h2

/-- Claim C5 witness: a pool of two buffers with the trace dequeue 0,
requeue 0 keeps the partition at every prefix, and a read_frame iteration
on index 1 from the start state keeps it. -/
theorem ownership_partition_witness :
    ownInvariant (runSteps (start_capturing 2)
      (([OwnStep.dq 0, OwnStep.rq 0]).take 2)) ∧
    ownInvariant (runSteps (start_capturing 2) (read_frameSteps 1)) := by
  constructor
  · exact (ownership_partition 2 [OwnStep.dq 0, OwnStep.rq 0] (by decide)).1 2
  · exact (ownership_partition 2 [] (by decide)).2 (start_capturing 2) 1
      (ownInvariant_start 2) (by decide)

end Capture
